import Mathlib

/-!
Shallow embedding of the postboi email layer: the `ProviderBase` helpers
(`parse_email_address`, `parse_addresses`, `decode_value`, `parse_form_data`,
`prepare_send`) and the ZeptoMail provider's `send` payload assembly.
Strings are Lean `String`s; JavaScript string primitives (trim, split on a
character, the two regexes used by the source) are embedded as executable
functions over `List Char`, and byte-level work (base64, UTF-8) uses `Nat`
bytes with explicit bounds.
-/

namespace Postboi

/-! ### JavaScript string primitives -/

/-- Characters matched by the JavaScript `\s` regex class and stripped by
`String.prototype.trim` (ECMAScript WhiteSpace plus LineTerminator). -/
def js_is_space (c : Char) : Bool :=
  c = '\u0020' ∨ c = '\t' ∨ c = '\n' ∨ c = '\r' ∨ c = '\u000b' ∨ c = '\u000c' ∨
  c = '\u00a0' ∨ c = '\u1680' ∨ ('\u2000' ≤ c ∧ c ≤ '\u200a') ∨
  c = '\u2028' ∨ c = '\u2029' ∨ c = '\u202f' ∨ c = '\u205f' ∨
  c = '\u3000' ∨ c = '\ufeff'

/-- JavaScript `String.prototype.trim`. -/
def trim_js (s : String) : String :=
  String.mk (((s.toList.dropWhile js_is_space).reverse.dropWhile js_is_space).reverse)

/-- JavaScript `str.split(sep)` for a one-character separator, accumulator form.
`"a→b→c".split("→") = ["a","b","c"]`, `"".split("→") = [""]`. -/
def split_on_char (sep : Char) : List Char → List Char → List (List Char)
  | cur, [] => [cur.reverse]
  | cur, c :: rest =>
    if c = sep then cur.reverse :: split_on_char sep [] rest
    else split_on_char sep (c :: cur) rest

/-- Split a string on a one-character separator, as JavaScript `split` does. -/
def split_str (sep : Char) (s : String) : List String :=
  (split_on_char sep [] s.toList).map String.mk

/-- JavaScript `Array.prototype.join(sep)`. -/
def join_with (sep : String) : List String → String
  | [] => ""
  | [s] => s
  | s :: rest => s ++ sep ++ join_with sep rest

/-- JavaScript `Array.prototype.join("")`. -/
def join_all (l : List String) : String := l.foldl (fun a b => a ++ b) ""

/-! ### radashi `title` (the default label formatter `_.title`) -/

/-- ASCII lowercasing, as `toLowerCase` behaves on the label strings involved. -/
def lower_str (s : String) : String := String.mk (s.toList.map Char.toLower)

/-- radashi `capitalize`: lowercase the string then uppercase its first character. -/
def capitalize (s : String) : String :=
  match s.toList.map Char.toLower with
  | [] => ""
  | c :: rest => String.mk (Char.toUpper c :: rest)

/-- Separator characters of the radashi `title` split regex class `[\.\-\s_]`. -/
def title_sep (c : Char) : Bool := c = '.' ∨ c = '-' ∨ c = '_' ∨ js_is_space c

/-- The radashi `title` split `str.split(/(?=[A-Z])|[\.\-\s_]/)`: separator
characters split and are dropped; an uppercase letter splits before itself
(zero-width lookahead), except at the start of a segment. -/
def title_split : List Char → List Char → List (List Char)
  | cur, [] => [cur.reverse]
  | cur, c :: rest =>
    if title_sep c then cur.reverse :: title_split [] rest
    else if c.isUpper ∧ cur ≠ [] then cur.reverse :: title_split [c] rest
    else title_split (c :: cur) rest

/-- radashi `_.title`, the default formatter applied to fieldset and field labels. -/
def title (s : String) : String :=
  if s = "" then ""
  else
    join_with " "
      ((((title_split [] s.toList).map (fun w => trim_js (String.mk w))).filter
          (fun w => w ≠ "")).map capitalize)

/-! ### Base64 (Node `Buffer` semantics) and UTF-8 bytes -/

/-- The standard base64 alphabet, in encoding order. -/
def b64_alphabet : List Char :=
  "ABCDEFGHIJKLMNOPQRSTUVWXYZabcdefghijklmnopqrstuvwxyz0123456789+/".toList

/-- The character encoding a six-bit value. -/
def sixbit (n : Nat) : Char := b64_alphabet.getD n 'A'

/-- The six-bit value of a base64 character (its index in the alphabet). -/
def sixbit_val (c : Char) : Nat := b64_alphabet.indexOf c

/-- Membership in the regex class `[A-Za-z0-9+/]`. -/
def is_b64_char (c : Char) : Bool :=
  ('A' ≤ c ∧ c ≤ 'Z') ∨ ('a' ≤ c ∧ c ≤ 'z') ∨ ('0' ≤ c ∧ c ≤ '9') ∨ c = '+' ∨ c = '/'

/-- The `decode_value` base64 regex
`^(?:[A-Za-z0-9+/]{4})*(?:[A-Za-z0-9+/]{2}==|[A-Za-z0-9+/]{3}=)?$`,
final optional padded group. -/
def b64_tail : List Char → Bool
  | [] => true
  | [a, b, c, d] =>
    if c = '=' ∧ d = '=' then is_b64_char a ∧ is_b64_char b
    else if d = '=' then is_b64_char a ∧ is_b64_char b ∧ is_b64_char c
    else false
  | _ => false

/-- The `decode_value` base64 regex: groups of four alphabet characters, then
an optional final group with `=` padding. -/
def b64_match : List Char → Bool
  | a :: b :: c :: d :: rest =>
    (is_b64_char a ∧ is_b64_char b ∧ is_b64_char c ∧ is_b64_char d ∧ b64_match rest) ∨
    b64_tail (a :: b :: c :: d :: rest)
  | l => b64_tail l

/-- Base64-encode a byte sequence (Node `Buffer.prototype.toString("base64")`). -/
def b64_encode : List Nat → List Char
  | a :: b :: c :: rest =>
    sixbit (a / 4) :: sixbit ((a % 4) * 16 + b / 16) ::
    sixbit ((b % 16) * 4 + c / 64) :: sixbit (c % 64) :: b64_encode rest
  | [a, b] => [sixbit (a / 4), sixbit ((a % 4) * 16 + b / 16), sixbit ((b % 16) * 4), '=']
  | [a] => [sixbit (a / 4), sixbit ((a % 4) * 16), '=', '=']
  | [] => []

/-- Base64-decode a character sequence (Node `Buffer.from(str, "base64")` on
well-formed input; `=` padding ends the data). -/
def b64_decode : List Char → List Nat
  | c1 :: c2 :: c3 :: c4 :: rest =>
    if c3 = '=' ∧ c4 = '=' then
      [sixbit_val c1 * 4 + sixbit_val c2 / 16]
    else if c4 = '=' then
      [sixbit_val c1 * 4 + sixbit_val c2 / 16,
       (sixbit_val c2 % 16) * 16 + sixbit_val c3 / 4]
    else
      (sixbit_val c1 * 4 + sixbit_val c2 / 16) ::
      ((sixbit_val c2 % 16) * 16 + sixbit_val c3 / 4) ::
      ((sixbit_val c3 % 4) * 64 + sixbit_val c4) :: b64_decode rest
  | _ => []

/-- UTF-8 encode one unicode scalar value. -/
def utf8_char_bytes (c : Char) : List Nat :=
  let n := c.toNat
  if n < 0x80 then [n]
  else if n < 0x800 then [0xc0 + n / 64, 0x80 + n % 64]
  else if n < 0x10000 then [0xe0 + n / 4096, 0x80 + (n / 64) % 64, 0x80 + n % 64]
  else [0xf0 + n / 262144, 0x80 + (n / 4096) % 64, 0x80 + (n / 64) % 64, 0x80 + n % 64]

/-- UTF-8 encode a character sequence. -/
def utf8_bytes (l : List Char) : List Nat := l.flatMap utf8_char_bytes

/-- UTF-8 decode a byte sequence (Node `Buffer.prototype.toString("utf8")`;
a truncated final sequence yields a replacement character).  The lead byte's
range decides how many continuation bytes are consumed. -/
def utf8_chars : List Nat → List Char
  | [] => []
  | [b] =>
    if b < 0x80 then [Char.ofNat b] else ['\uFFFD']
  | [b, b2] =>
    if b < 0x80 then Char.ofNat b :: utf8_chars [b2]
    else if b < 0xe0 then [Char.ofNat ((b - 0xc0) * 64 + b2 % 64)]
    else ['\uFFFD']
  | [b, b2, b3] =>
    if b < 0x80 then Char.ofNat b :: utf8_chars [b2, b3]
    else if b < 0xe0 then Char.ofNat ((b - 0xc0) * 64 + b2 % 64) :: utf8_chars [b3]
    else if b < 0xf0 then [Char.ofNat ((b - 0xe0) * 4096 + (b2 % 64) * 64 + b3 % 64)]
    else ['\uFFFD']
  | b :: b2 :: b3 :: b4 :: rest =>
    if b < 0x80 then Char.ofNat b :: utf8_chars (b2 :: b3 :: b4 :: rest)
    else if b < 0xe0 then
      Char.ofNat ((b - 0xc0) * 64 + b2 % 64) :: utf8_chars (b3 :: b4 :: rest)
    else if b < 0xf0 then
      Char.ofNat ((b - 0xe0) * 4096 + (b2 % 64) * 64 + b3 % 64) :: utf8_chars (b4 :: rest)
    else
      Char.ofNat ((b - 0xf0) * 262144 + (b2 % 64) * 4096 + (b3 % 64) * 64 + b4 % 64) ::
      utf8_chars rest

/-- The characters removed by `str.replace(/[\r\n]+/g, "")`. -/
def strip_crlf (l : List Char) : List Char := l.filter (fun c => ¬(c = '\r' ∨ c = '\n'))

/-- `ProviderBase.decode_value`: if the string matches the base64 regex, strip
embedded line breaks, base64-decode, and read the bytes back as UTF-8 text;
otherwise return the string unchanged. -/
def decode_value (s : String) : String :=
  if b64_match s.toList then String.mk (utf8_chars (b64_decode (strip_crlf s.toList)))
  else s

/-! ### Address normalization (`parse_email_address`, `parse_addresses`)

The display-name regex `^\s*"?(.+?)"?\s*<\s*([^>]+)\s*>\s*$` is embedded as a
backtracking matcher in continuation-passing style: each quantifier tries its
ECMAScript-preferred alternative first and falls back on failure, so the first
overall match (and hence the captured groups) agrees with the JavaScript
engine. -/

/-- The JavaScript regex `.` (any character except a line terminator). -/
def js_dot (c : Char) : Bool := ¬(c = '\n' ∨ c = '\r' ∨ c = '\u2028' ∨ c = '\u2029')

/-- Greedy `p*`: prefer consuming another `p` character, backtrack to fewer. -/
def star_greedy {α : Type} (p : Char → Bool) : List Char → (List Char → Option α) → Option α
  | [], k => k []
  | c :: rest, k =>
    if p c then (star_greedy p rest k).orElse (fun _ => k (c :: rest))
    else k (c :: rest)

/-- Greedy `ch?`: prefer consuming the character, backtrack to skipping it. -/
def opt_char {α : Type} (ch : Char) (s : List Char) (k : List Char → Option α) : Option α :=
  match s with
  | c :: rest => if c = ch then (k rest).orElse (fun _ => k (c :: rest)) else k (c :: rest)
  | [] => k []

/-- Lazy capturing `(p+?)`: prefer the shortest capture, extend on failure. -/
def plus_lazy_cap {α : Type} (p : Char → Bool) :
    List Char → (List Char → List Char → Option α) → Option α
  | [], _ => none
  | c :: rest, k =>
    if p c then
      (k [c] rest).orElse (fun _ => plus_lazy_cap p rest (fun cs r => k (c :: cs) r))
    else none

/-- Greedy capturing `p*` continuation: prefer the longest capture. -/
def star_greedy_cap {α : Type} (p : Char → Bool) :
    List Char → (List Char → List Char → Option α) → Option α
  | [], k => k [] []
  | c :: rest, k =>
    if p c then
      (star_greedy_cap p rest (fun cs r => k (c :: cs) r)).orElse (fun _ => k [] (c :: rest))
    else k [] (c :: rest)

/-- Greedy capturing `(p+)`: one mandatory character then greedy `p*`. -/
def plus_greedy_cap {α : Type} (p : Char → Bool) :
    List Char → (List Char → List Char → Option α) → Option α
  | [], _ => none
  | c :: rest, k =>
    if p c then star_greedy_cap p rest (fun cs r => k (c :: cs) r)
    else none

/-- The anchored match of `^\s*"?(.+?)"?\s*<\s*([^>]+)\s*>\s*$`, returning the
two captured groups when the whole input matches. -/
def match_display (s : List Char) : Option (List Char × List Char) :=
  star_greedy js_is_space s (fun s1 =>
  opt_char '"' s1 (fun s2 =>
  plus_lazy_cap js_dot s2 (fun g1 s3 =>
  opt_char '"' s3 (fun s4 =>
  star_greedy js_is_space s4 (fun s5 =>
  match s5 with
  | '<' :: s6 =>
    star_greedy js_is_space s6 (fun s7 =>
    plus_greedy_cap (fun c => c ≠ '>') s7 (fun g2 s8 =>
    star_greedy js_is_space s8 (fun s9 =>
    match s9 with
    | '>' :: s10 =>
      star_greedy js_is_space s10 (fun s11 =>
      match s11 with
      | [] => some (g1, g2)
      | _ => none)
    | _ => none)))
  | _ => none)))))

/-- `MailAddress`: a concrete email address used by providers. -/
structure MailAddress where
  address : String
  name : Option String := none
deriving DecidableEq, Repr

/-- `Email`: a plain string address or a structured name/address pair. -/
inductive Email where
  | str (s : String)
  | addr (a : MailAddress)
deriving DecidableEq, Repr

/-- `ProviderBase.parse_email_address`: normalize a flexible `Email` value into
a concrete `MailAddress`, splitting `Name <addr>` display strings. -/
def parse_email_address : Email → MailAddress
  | .addr a => a
  | .str s =>
    let str := trim_js s
    match match_display str.toList with
    | some (g1, g2) =>
      let name := trim_js (String.mk g1)
      let address := trim_js (String.mk g2)
      if name ≠ "" then { address := address, name := some name }
      else { address := address }
    | none => { address := str }

/-- An `Array<Email> | Email` value as accepted by the list-capable fields. -/
inductive AddrInput where
  | one (e : Email)
  | many (l : List Email)
deriving DecidableEq, Repr

/-- JavaScript `str.includes(",")`. -/
def has_comma (s : String) : Bool := s.toList.contains ','

/-- `ProviderBase.parse_addresses`: an array maps elementwise; a string
containing a comma is split on commas, trimmed, empty segments dropped, each
segment normalized; anything else normalizes as a one-element list. -/
def parse_addresses : AddrInput → List MailAddress
  | .many l => l.map parse_email_address
  | .one e =>
    match e with
    | .str s =>
      if has_comma s then
        (((split_str ',' s).map trim_js).filter (fun x => x ≠ "")).map
          (fun a => parse_email_address (.str a))
      else [parse_email_address (.str s)]
    | .addr a => [parse_email_address (.addr a)]

/-! ### Form data model and the grouping engine (`parse_form_data`) -/

/-- A `File` entry of a `FormData` body: name, MIME type, size, and content
bytes (`size` is the byte length reported by the `File` object). -/
structure FormFile where
  name : String
  type : String
  size : Nat
  content : List Nat := []
deriving DecidableEq, Repr

/-- A `FormData` value: a string field or a file field. -/
inductive FormValue where
  | str (s : String)
  | file (f : FormFile)
deriving DecidableEq, Repr

/-- An ordered `FormData` body: key/value pairs in submission order. -/
abbrev FormBody := List (String × FormValue)

/-- A grouped cell: `Map` values in the source are `string | Array<string>`. -/
inductive FieldVal where
  | single (s : String)
  | multi (l : List String)
deriving DecidableEq, Repr

/-- The inner `Map<string, string | Array<string>>`, insertion ordered. -/
abbrev FieldMap := List (String × FieldVal)

/-- The outer `Map<string, Map<...>>` from section name to its fields. -/
abbrev Grouped := List (String × FieldMap)

/-- JavaScript `Map.prototype.get`. -/
def assoc_get {α : Type} : List (String × α) → String → Option α
  | [], _ => none
  | (k, v) :: rest, key => if k = key then some v else assoc_get rest key

/-- JavaScript `Map.prototype.set`: update an existing key in place, append a
new key at the end. -/
def assoc_set {α : Type} : List (String × α) → String → α → List (String × α)
  | [], key, v => [(key, v)]
  | (k, w) :: rest, key, v =>
    if k = key then (k, v) :: rest else (k, w) :: assoc_set rest key v

/-- JavaScript truthiness of a grouped cell (`if (existing)`): the empty
string is falsy, every array is truthy. -/
def FieldVal.truthy : FieldVal → Bool
  | .single s => s ≠ ""
  | .multi _ => true

/-- Record one string field into a section map, mirroring the source: a truthy
existing array gets the value pushed, a truthy existing string becomes a
two-element array, and a falsy or absent entry is set to the plain value. -/
def add_field (m : FieldMap) (field value : String) : FieldMap :=
  match assoc_get m field with
  | some existing =>
    if existing.truthy then
      match existing with
      | .multi l => assoc_set m field (.multi (l ++ [value]))
      | .single s => assoc_set m field (.multi [s, value])
    else assoc_set m field (.single value)
  | none => assoc_set m field (.single value)

/-- Record one string field into the grouped map under a section, creating the
section at the end of the map when it is new. -/
def add_to_section (g : Grouped) (fieldset field value : String) : Grouped :=
  match assoc_get g fieldset with
  | some m => assoc_set g fieldset (add_field m field value)
  | none => g ++ [(fieldset, add_field [] field value)]

/-- The six reserved control keys of the form parser. -/
def reserved_keys : List String := ["_to", "_subject", "_from", "_reply_to", "_cc", "_bcc"]

/-- The extracted `Partial<SendOptions>` that `parse_form_data` accumulates:
control fields decoded from reserved keys, plus the rendered body. -/
structure ExtractedOptions where
  to_ : Option String := none
  from_ : Option String := none
  subject : Option String := none
  reply_to : Option String := none
  cc : Option String := none
  bcc : Option String := none
  body : Option String := none
deriving DecidableEq, Repr

/-- The loop state of `parse_form_data`: extracted options, collected file
attachments, and the grouped content fields. -/
structure ParseState where
  options : ExtractedOptions := {}
  attachments : List FormFile := []
  grouped : Grouped := []
deriving DecidableEq, Repr

/-- One iteration of the `parse_form_data` loop over a `(key, value)` entry. -/
def parse_form_step (st : ParseState) (e : String × FormValue) : ParseState :=
  match e.2 with
  | .file f =>
    if f.name ≠ "" ∧ f.size > 0 then { st with attachments := st.attachments ++ [f] }
    else st
  | .str v =>
    let key := e.1
    if key = "_to" then { st with options.to_ := some (decode_value v) }
    else if key = "_subject" then { st with options.subject := some (decode_value v) }
    else if key = "_from" then { st with options.from_ := some (decode_value v) }
    else if key = "_reply_to" then { st with options.reply_to := some (decode_value v) }
    else if key = "_cc" then { st with options.cc := some (decode_value v) }
    else if key = "_bcc" then { st with options.bcc := some (decode_value v) }
    else
      let parts := split_str '→' key
      let fieldset := parts.getD 0 ""
      let field := parts.getD 1 ""
      if field ≠ "" then { st with grouped := add_to_section st.grouped fieldset field v }
      else { st with grouped := add_to_section st.grouped "general" key v }

/-- The full `parse_form_data` loop over the submitted entries. -/
def parse_form_entries (body : FormBody) : ParseState :=
  body.foldl parse_form_step {}

/-! ### The HTML table renderer -/

/-- The section header row (full width, bold, bottom border). -/
def header_row (label : String) : String :=
  "<tr><td colspan=\"2\" style=\"padding: 15px 0 10px 0; font-weight: bold; font-size: 16px; border-bottom: 1px solid #ccc;\">" ++
  label ++ "</td></tr>"

/-- The empty spacer row emitted after a non-general section. -/
def spacer_row : String := "<tr><td colspan=\"2\" style=\"padding: 10px 0;\"></td></tr>"

/-- Display a grouped cell: an array renders as an unordered list in encounter
order, a string renders as itself. -/
def display_val : FieldVal → String
  | .single s => s
  | .multi l =>
    "<ul style=\"margin: 0; padding-left: 20px;\">" ++
    join_all (l.map (fun v => "<li>" ++ v ++ "</li>")) ++ "</ul>"

/-- A two-cell field row: formatted label, then the displayed value. -/
def field_row (label display : String) : String :=
  "<tr><td style=\"padding: 5px 10px 5px 0; vertical-align: top;\">" ++ label ++
  "</td><td style=\"padding: 5px 0;\">" ++ display ++ "</td></tr>"

/-- The rows of one section's fields. -/
def render_fields (format_name : String → String) (fields : FieldMap) : List String :=
  fields.map (fun e => field_row (format_name e.1) (display_val e.2))

/-- The renderer loop over sections, accumulating pushed rows: a non-general
section with fields gets a header row before and a spacer row after its field
rows; the general section contributes only its field rows. -/
def render_rows_loop (ff fn : String → String) : List String → Grouped → List String
  | rows, [] => rows
  | rows, (fieldset, fields) :: rest =>
    if fields.length > 0 then
      render_rows_loop ff fn
        ((if fieldset ≠ "general" then rows ++ [header_row (ff fieldset)] else rows) ++
          render_fields fn fields ++
          (if fieldset ≠ "general" then [spacer_row] else []))
        rest
    else render_rows_loop ff fn rows rest

/-- The rendered table around the joined rows. -/
def render_table (ff fn : String → String) (g : Grouped) : String :=
  "<table style=\"border-collapse: collapse; width: auto;\">" ++
  join_all (render_rows_loop ff fn [] g) ++ "</table>"

/-! ### The formatter policy -/

/-- One formatter slot: `undefined`, an explicit function, or `null`/`false`
(the two falsy disabling values behave identically downstream). -/
inductive FmtSlot where
  | unset
  | fn (f : String → String)
  | dis

/-- The `formatter` object with its two optional slots. -/
structure FormatterObj where
  fieldset : FmtSlot := .unset
  name : FmtSlot := .unset

/-- The `formatter` option itself: `undefined`, an object, or `null`/`false`. -/
inductive FormatterOpt where
  | unset
  | obj (o : FormatterObj)
  | dis

/-- Formatter selection of `parse_form_data`: a `null`/`false` policy forces
identity for both slots; otherwise each slot maps `undefined` to `_.title`, a
function to itself, and `null`/`false` to identity. -/
def choose_formatters (formatter : FormatterOpt) : (String → String) × (String → String) :=
  match formatter with
  | .dis => (fun s => s, fun s => s)
  | .unset => (title, title)
  | .obj o =>
    (match o.fieldset with
     | .unset => title
     | .fn f => f
     | .dis => fun s => s,
     match o.name with
     | .unset => title
     | .fn f => f
     | .dis => fun s => s)

/-- The result record of `parse_form_data`. -/
structure ParseFormResult where
  options : ExtractedOptions
  attachments : List FormFile

/-- `ProviderBase.parse_form_data`: run the grouping loop, then if any section
was collected, render the grouped map into the HTML table and store it as the
extracted body. -/
def parse_form_data (body : FormBody) (formatter : FormatterOpt) : ParseFormResult :=
  let st := parse_form_entries body
  let p := choose_formatters formatter
  if st.grouped.length > 0 then
    { options := { st.options with body := some (render_table p.1 p.2 st.grouped) },
      attachments := st.attachments }
  else
    { options := st.options, attachments := st.attachments }

/-! ### The send orchestrator (`prepare_send`) and the zepto payload -/

/-- The `body` option: literal text or a `FormData` submission. -/
inductive BodyVal where
  | str (s : String)
  | form (f : FormBody)
deriving DecidableEq, Repr

/-- The `attachments` option: a single `File` or an array of `File`s. -/
inductive AttachVal where
  | one (f : FormFile)
  | many (l : List FormFile)
deriving DecidableEq, Repr

/-- The caller-facing `SendOptions` record. -/
structure SendOptions where
  to_ : Option AddrInput := none
  from_ : Option Email := none
  reply_to : Option AddrInput := none
  cc : Option AddrInput := none
  bcc : Option AddrInput := none
  subject : Option String := none
  body : BodyVal
  formatter : FormatterOpt := .unset
  attachments : Option AttachVal := none

/-- The provider constructor defaults `{ from?: string; to?: string }`. -/
structure Defaults where
  from_ : Option String := none
  to_ : Option String := none

/-- The form-extraction and spread-merge step of `prepare_send`: when the body
is a `FormData`, parse it and overlay the extracted fields onto the caller's
options via `{ ...options, ...extracted }` — every key present in the
extracted record overwrites the caller's same-named value.  The source calls
`parse_form_data(options.body)` without its formatter parameter, so the
formatter slot is always `undefined` here.  Collected file attachments, when
nonempty, replace the `attachments` option. -/
def merge_form (o : SendOptions) : SendOptions :=
  match o.body with
  | .str _ => o
  | .form f =>
    let pr := parse_form_data f .unset
    let ex := pr.options
    let merged : SendOptions :=
      { o with
        to_ := match ex.to_ with
          | some s => some (.one (.str s))
          | none => o.to_
        from_ := match ex.from_ with
          | some s => some (.str s)
          | none => o.from_
        subject := match ex.subject with
          | some s => some s
          | none => o.subject
        reply_to := match ex.reply_to with
          | some s => some (.one (.str s))
          | none => o.reply_to
        cc := match ex.cc with
          | some s => some (.one (.str s))
          | none => o.cc
        bcc := match ex.bcc with
          | some s => some (.one (.str s))
          | none => o.bcc
        body := match ex.body with
          | some h => .str h
          | none => o.body }
    if pr.attachments.length > 0 then
      { merged with attachments := some (.many pr.attachments) }
    else merged

/-- JavaScript truthiness of an address option after `??=` defaulting:
`undefined` and the empty string are falsy, objects and arrays are truthy. -/
def addr_truthy : Option AddrInput → Bool
  | none => false
  | some (.one (.str s)) => s ≠ ""
  | some (.one (.addr _)) => true
  | some (.many _) => true

/-- JavaScript truthiness of the `from` option. -/
def email_truthy : Option Email → Bool
  | none => false
  | some (.str s) => s ≠ ""
  | some (.addr _) => true

/-- The `to` option after form merging and `??=` defaulting. -/
def merged_to (o : SendOptions) (d : Defaults) : Option AddrInput :=
  match (merge_form o).to_ with
  | none => d.to_.map (fun s => .one (.str s))
  | some x => some x

/-- The `from` option after form merging and `??=` defaulting. -/
def merged_from (o : SendOptions) (d : Defaults) : Option Email :=
  match (merge_form o).from_ with
  | none => d.from_.map .str
  | some x => some x

/-- The message of the missing-recipient error. -/
def missing_to_msg : String := "No recipient address provided (to or default_to)"

/-- The message of the missing-sender error. -/
def missing_from_msg : String := "No sender address provided (from or default_from)"

/-- The options record `prepare_send` hands back, with `to` and `from`
resolved to truthy values. -/
structure ResolvedOptions where
  to_ : AddrInput
  from_ : Email
  reply_to : Option AddrInput := none
  cc : Option AddrInput := none
  bcc : Option AddrInput := none
  subject : Option String := none
  body : BodyVal
  attachments : Option AttachVal := none
deriving DecidableEq, Repr

/-- `ProviderBase.prepare_send`: merge form-extracted fields, apply the
constructor defaults to absent `to`/`from`, and fail with the missing-recipient
or missing-sender error when the respective field is still falsy; the `to`
check runs before the `from` check. -/
def prepare_send (o : SendOptions) (d : Defaults) : Except String ResolvedOptions :=
  let m := merge_form o
  let to2 := merged_to o d
  let from2 := merged_from o d
  match to2 with
  | none => .error missing_to_msg
  | some t =>
    if addr_truthy (some t) then
      match from2 with
      | none => .error missing_from_msg
      | some fr =>
        if email_truthy (some fr) then
          .ok { to_ := t, from_ := fr, reply_to := m.reply_to, cc := m.cc, bcc := m.bcc,
                subject := m.subject, body := m.body, attachments := m.attachments }
        else .error missing_from_msg
    else .error missing_to_msg

/-- A provider-agnostic attachment with base64 content
(`ProviderBase.parse_attachment`). -/
structure MailAttachment where
  name : String
  content : List Char
  mime_type : String
deriving DecidableEq, Repr

/-- `ProviderBase.parse_attachment`: base64-encode the file bytes. -/
def parse_attachment (f : FormFile) : MailAttachment :=
  { name := f.name, content := b64_encode f.content, mime_type := f.type }

/-- `ProviderBase.parse_attachments`: one file or a list of files. -/
def parse_attachments : AttachVal → List MailAttachment
  | .many l => l.map parse_attachment
  | .one f => [parse_attachment f]

/-- The zepto wire wrapper `{ email_address: ... }`. -/
structure WrappedAddress where
  email_address : MailAddress
deriving DecidableEq, Repr

/-- The ZeptoMail `SendParams` payload. -/
structure SendParams where
  to_ : List WrappedAddress
  from_ : MailAddress
  reply_to : Option (List MailAddress) := none
  bcc : Option (List WrappedAddress) := none
  cc : Option (List WrappedAddress) := none
  subject : String
  htmlbody : String
  attachments : Option (List MailAttachment) := none
deriving DecidableEq, Repr

/-- The payload assembly of `Postboi.send`: every list-capable field goes
through `parse_addresses` (with the zepto wrapper where the wire schema wants
one), `from` goes through `parse_email_address` alone, a falsy subject falls
back to the default, and a non-string body renders as an empty `htmlbody`. -/
def build_zepto_params (o : ResolvedOptions) : SendParams :=
  { to_ := (parse_addresses o.to_).map (fun a => { email_address := a })
    from_ := parse_email_address o.from_
    reply_to := o.reply_to.map parse_addresses
    bcc := o.bcc.map (fun x => (parse_addresses x).map (fun a => { email_address := a }))
    cc := o.cc.map (fun x => (parse_addresses x).map (fun a => { email_address := a }))
    subject := match o.subject with
      | some s => if s ≠ "" then s else "Mail sent from website"
      | none => "Mail sent from website"
    htmlbody := match o.body with
      | .str s => s
      | .form _ => ""
    attachments := o.attachments.map parse_attachments }

/-- The pre-transport part of `Postboi.send`: `prepare_send` runs first and a
raised error propagates before the payload is built or any transport call is
made. -/
def send_request (o : SendOptions) (d : Defaults) : Except String SendParams :=
  (prepare_send o d).map build_zepto_params

/-- How many times `send` invokes the `fetch` transport: zero when
`prepare_send` raises, one when it returns. -/
def transport_calls (o : SendOptions) (d : Defaults) : Nat :=
  match prepare_send o d with
  | .error _ => 0
  | .ok _ => 1

/-! ### Helper lemmas on the ordered-map operations -/

lemma assoc_get_set_self {α : Type} (m : List (String × α)) (k : String) (v : α) :
    assoc_get (assoc_set m k v) k = some v := by
  induction m with
  | nil => simp [assoc_set, assoc_get]
  | cons e rest ih =>
    obtain ⟨k', w⟩ := e
    by_cases h : k' = k <;> simp [assoc_set, assoc_get, h, ih]

lemma assoc_get_set_ne {α : Type} (m : List (String × α)) (k k' : String) (v : α)
    (h : k' ≠ k) : assoc_get (assoc_set m k v) k' = assoc_get m k' := by
  induction m with
  | nil => simp [assoc_set, assoc_get, Ne.symm h]
  | cons e rest ih =>
    obtain ⟨k0, w⟩ := e
    by_cases h0 : k0 = k
    · subst h0
      simp [assoc_set, assoc_get, Ne.symm h]
    · simp [assoc_set, assoc_get, h0, ih]

lemma assoc_set_keys_of_mem {α : Type} (m : List (String × α)) (k : String) (v : α)
    (h : (assoc_get m k).isSome) :
    (assoc_set m k v).map Prod.fst = m.map Prod.fst := by
  induction m with
  | nil => simp [assoc_get] at h
  | cons e rest ih =>
    obtain ⟨k0, w⟩ := e
    by_cases h0 : k0 = k
    · simp [assoc_set, h0]
    · simp [assoc_get, h0] at h
      simp [assoc_set, h0, ih h]

lemma assoc_get_append {α : Type} (l1 l2 : List (String × α)) (k : String) :
    assoc_get (l1 ++ l2) k =
      match assoc_get l1 k with
      | some v => some v
      | none => assoc_get l2 k := by
  induction l1 with
  | nil => simp [assoc_get]
  | cons e rest ih =>
    obtain ⟨k0, w⟩ := e
    by_cases h0 : k0 = k <;> simp [assoc_get, h0, ih]

/-! ### C5: multi-value coalescing within a section -/

/-- Claim C5 (amended), coalescing behavior of the grouping engine: a repeated
field label whose stored value is a nonempty string coalesces into a
two-element list headed by the first value; a stored list gets the new value
appended at the end; the field keeps its original position; and sections other
than the one being written are untouched.  (When the stored value is the empty
string, JavaScript truthiness makes the source overwrite it instead — see the
counterexample.) -/
theorem c5_grouping (m m' : FieldMap) (f f' v v' s : String) (l : List String)
    (h1 : assoc_get m f = some (.single s)) (hs : s ≠ "")
    (h2 : assoc_get m' f' = some (.multi l)) :
    assoc_get (add_field m f v) f = some (.multi [s, v])
  ∧ (add_field m f v).map Prod.fst = m.map Prod.fst
  ∧ assoc_get (add_field m' f' v') f' = some (.multi (l ++ [v']))
  ∧ (add_field m' f' v').map Prod.fst = m'.map Prod.fst
  ∧ (∀ (g : Grouped) (sec sec' fld w : String), sec' ≠ sec →
      assoc_get (add_to_section g sec fld w) sec' = assoc_get g sec') := by
  refine ⟨?_, ?_, ?_, ?_, ?_⟩
  · simp [add_field, h1, FieldVal.truthy, hs, assoc_get_set_self]
  · simp [add_field, h1, FieldVal.truthy, hs,
      assoc_set_keys_of_mem m f _ (by simp [h1])]
  · simp [add_field, h2, FieldVal.truthy, assoc_get_set_self]
  · simp [add_field, h2, FieldVal.truthy,
      assoc_set_keys_of_mem m' f' _ (by simp [h2])]
  · intro g sec sec' fld w hne
    unfold add_to_section
    cases hg : assoc_get g sec with
    | some m0 => simp [assoc_get_set_ne g sec sec' _ hne]
    | none =>
      rw [assoc_get_append]
      cases hg' : assoc_get g sec' with
      | some w0 => simp
      | none => simp [assoc_get, Ne.symm hne]

/-- Witness for C5 at concrete maps. -/
theorem c5_grouping_witness :
    (assoc_get [("f", FieldVal.single "a")] "f" = some (.single "a") ∧ "a" ≠ "" ∧
      assoc_get [("g", FieldVal.multi ["x", "y"])] "g" = some (.multi ["x", "y"])) ∧
    assoc_get (add_field [("f", FieldVal.single "a")] "f" "b") "f" =
      some (.multi ["a", "b"]) := by
  refine ⟨⟨by decide, by decide, by decide⟩, ?_⟩
  exact (c5_grouping [("f", .single "a")] [("g", .multi ["x", "y"])] "f" "g" "b" "z" "a"
    ["x", "y"] (by decide) (by decide) (by decide)).1

/-- Counterexample for C5 as stated: when the first stored value is the empty
string, a repeated field does not coalesce into the list `["", "x"]`; the
source's truthiness check overwrites the empty string with the new value. -/
theorem c5_counterexample :
    assoc_get ((parse_form_entries [("s→f", .str ""), ("s→f", .str "x")]).grouped) "s" =
      some [("f", FieldVal.single "x")] ∧
    ¬ assoc_get ((parse_form_entries [("s→f", .str ""), ("s→f", .str "x")]).grouped) "s" =
      some [("f", FieldVal.multi ["", "x"])] := by
  constructor <;> decide

/-! ### C6: section iteration order, headers and spacers -/

/-- One section's contribution to the rendered rows, as the spec describes it:
nothing for an empty section, a header row before and a spacer row after the
field rows for a named section, and bare field rows for "general". -/
def section_rows (ff fn : String → String) (e : String × FieldMap) : List String :=
  if e.2.length > 0 then
    (if e.1 ≠ "general" then [header_row (ff e.1)] else []) ++
    render_fields fn e.2 ++
    (if e.1 ≠ "general" then [spacer_row] else [])
  else []

lemma render_rows_loop_acc (ff fn : String → String) (rows : List String) (g : Grouped) :
    render_rows_loop ff fn rows g = rows ++ g.flatMap (section_rows ff fn) := by
  induction g generalizing rows with
  | nil => simp [render_rows_loop]
  | cons e rest ih =>
    obtain ⟨fieldset, fields⟩ := e
    by_cases h : fields.length > 0
    · by_cases hg : fieldset = "general" <;>
        simp [render_rows_loop, section_rows, h, hg, ih, List.append_assoc]
    · simp [render_rows_loop, section_rows, h, ih]

/-- Claim C6: the renderer walks the grouped sections in list (first-encounter)
order, emitting each section's block in place; a non-"general" section with at
least one field contributes a header row with the formatted section label
before its field rows and a spacer row after them; the "general" section
contributes exactly its field rows, with no header and no spacer. -/
theorem c6_renderer (ff fn : String → String) (g : Grouped) (s : String) (m : FieldMap)
    (hm : m.length > 0) (hs : s ≠ "general") :
    render_rows_loop ff fn [] g = g.flatMap (section_rows ff fn)
  ∧ section_rows ff fn (s, m) = [header_row (ff s)] ++ render_fields fn m ++ [spacer_row]
  ∧ (∀ m' : FieldMap, section_rows ff fn ("general", m') = render_fields fn m') := by
  refine ⟨by simpa using render_rows_loop_acc ff fn [] g, ?_, ?_⟩
  · simp [section_rows, hm, hs]
  · intro m'
    by_cases h : m'.length > 0
    · simp [section_rows, h]
    · simp only [Nat.pos_iff_ne_zero, ne_eq, not_not, List.length_eq_zero] at h
      subst h
      simp [section_rows, render_fields]

/-- Witness for C6 at a concrete grouped structure and the default formatter. -/
theorem c6_renderer_witness :
    (([("name", FieldVal.single "Jo")] : FieldMap).length > 0 ∧ "contact" ≠ "general") ∧
    section_rows title title ("contact", [("name", FieldVal.single "Jo")]) =
      [header_row "Contact"] ++ [field_row "Name" "Jo"] ++ [spacer_row] := by
  refine ⟨⟨by decide, by decide⟩, ?_⟩
  have h := (c6_renderer title title [("contact", [("name", FieldVal.single "Jo")])]
    "contact" [("name", FieldVal.single "Jo")] (by decide) (by decide)).2.1
  rw [h]
  decide

/-! ### C10: keys with more than one section delimiter -/

/-- Claim C10 (amended): a key splitting into at least two delimiter-separated
segments with a nonempty second segment is grouped under section = first
segment and field label = second segment, every later segment being discarded;
the row then renders under the (formatted) truncated label.  (When the second
segment is empty, JavaScript falsiness sends the whole key to the "general"
section instead — see the counterexample.) -/
theorem c10_truncation (st : ParseState) (key v p0 p1 : String) (rest : List String)
    (ff fn : String → String)
    (h : split_str '→' key = p0 :: p1 :: rest) (hp1 : p1 ≠ "") (hp0 : p0 ≠ "general") :
    parse_form_step st (key, .str v) =
      { st with grouped := add_to_section st.grouped p0 p1 v }
  ∧ (parse_form_entries [(key, .str v)]).grouped = [(p0, [(p1, .single v)])]
  ∧ render_rows_loop ff fn [] [(p0, [(p1, FieldVal.single v)])] =
      [header_row (ff p0), field_row (fn p1) v, spacer_row] := by
  have hsplit : ∀ r ∈ reserved_keys, split_str '→' r = [r] := by decide
  have hne : ∀ r ∈ reserved_keys, key ≠ r := by
    intro r hr he
    rw [he, hsplit r hr] at h
    simp at h
  have hstep : ∀ st' : ParseState, parse_form_step st' (key, .str v) =
      { st' with grouped := add_to_section st'.grouped p0 p1 v } := by
    intro st'
    simp only [parse_form_step]
    rw [if_neg (hne "_to" (by decide)), if_neg (hne "_subject" (by decide)),
      if_neg (hne "_from" (by decide)), if_neg (hne "_reply_to" (by decide)),
      if_neg (hne "_cc" (by decide)), if_neg (hne "_bcc" (by decide))]
    simp [h, hp1]
  refine ⟨hstep st, ?_, ?_⟩
  · have h0 : parse_form_entries [(key, .str v)] = parse_form_step {} (key, .str v) := rfl
    rw [h0, hstep {}]
    simp [add_to_section, add_field, assoc_get, assoc_set]
  · simp [render_rows_loop, render_fields, display_val, hp0]

/-- Witness for C10 at the key `a→b→c`. -/
theorem c10_truncation_witness :
    (split_str '→' "a→b→c" = ["a", "b", "c"] ∧ ("b" : String) ≠ "" ∧ ("a" : String) ≠ "general") ∧
    (parse_form_entries [("a→b→c", FormValue.str "v")]).grouped =
      [("a", [("b", FieldVal.single "v")])] := by
  refine ⟨⟨by decide, by decide, by decide⟩, ?_⟩
  exact (c10_truncation {} "a→b→c" "v" "a" "b" ["c"] title title (by decide) (by decide)
    (by decide)).2.1

/-- Counterexample for C10 as stated: for the key `a→→c` (two delimiters,
empty second segment) the claim predicts grouping under section `a`, but the
source's truthiness test on the second segment sends the whole key to the
"general" section. -/
theorem c10_counterexample :
    assoc_get ((parse_form_entries [("a→→c", FormValue.str "v")]).grouped) "a" = none ∧
    assoc_get ((parse_form_entries [("a→→c", FormValue.str "v")]).grouped) "general" =
      some [("a→→c", FieldVal.single "v")] := by
  constructor <;> decide

/-! ### C1: merge precedence between explicit and form-extracted fields -/

lemma parse_form_data_to (f : FormBody) (fmt : FormatterOpt) :
    (parse_form_data f fmt).options.to_ = (parse_form_entries f).options.to_ := by
  unfold parse_form_data
  by_cases h : (parse_form_entries f).grouped.length > 0 <;> simp [h]

lemma parse_form_data_from (f : FormBody) (fmt : FormatterOpt) :
    (parse_form_data f fmt).options.from_ = (parse_form_entries f).options.from_ := by
  unfold parse_form_data
  by_cases h : (parse_form_entries f).grouped.length > 0 <;> simp [h]

/-- Claim C1 (amended), the spread-merge precedence of `prepare_send`: for each
of the six control fields, a form-extracted value overrides the caller's
same-named explicit value, and the explicit value survives only when the form
does not supply that field; the constructor default applies only when both are
absent. -/
theorem c1_merge_precedence (o : SendOptions) (f : FormBody) (d : Defaults)
    (h : o.body = .form f) :
    ((merge_form o).to_ =
      ((parse_form_data f .unset).options.to_.map (fun s => AddrInput.one (.str s))).or o.to_)
  ∧ ((merge_form o).from_ =
      ((parse_form_data f .unset).options.from_.map Email.str).or o.from_)
  ∧ ((merge_form o).subject = ((parse_form_data f .unset).options.subject).or o.subject)
  ∧ ((merge_form o).reply_to =
      ((parse_form_data f .unset).options.reply_to.map (fun s => AddrInput.one (.str s))).or
        o.reply_to)
  ∧ ((merge_form o).cc =
      ((parse_form_data f .unset).options.cc.map (fun s => AddrInput.one (.str s))).or o.cc)
  ∧ ((merge_form o).bcc =
      ((parse_form_data f .unset).options.bcc.map (fun s => AddrInput.one (.str s))).or o.bcc)
  ∧ (merged_to o d =
      (((parse_form_data f .unset).options.to_.map (fun s => AddrInput.one (.str s))).or
        o.to_).or (d.to_.map (fun s => AddrInput.one (.str s)))) := by
  have hto : (merge_form o).to_ =
      ((parse_form_data f .unset).options.to_.map (fun s => AddrInput.one (.str s))).or o.to_ := by
    simp only [merge_form, h]
    by_cases ha : (parse_form_data f FormatterOpt.unset).attachments.length > 0 <;>
      cases hx : (parse_form_data f FormatterOpt.unset).options.to_ <;>
      simp [ha, hx, Option.or]
  refine ⟨hto, ?_, ?_, ?_, ?_, ?_, ?_⟩
  · simp only [merge_form, h]
    by_cases ha : (parse_form_data f FormatterOpt.unset).attachments.length > 0 <;>
      cases hx : (parse_form_data f FormatterOpt.unset).options.from_ <;>
      simp [ha, hx, Option.or]
  · simp only [merge_form, h]
    by_cases ha : (parse_form_data f FormatterOpt.unset).attachments.length > 0 <;>
      cases hx : (parse_form_data f FormatterOpt.unset).options.subject <;>
      simp [ha, hx, Option.or]
  · simp only [merge_form, h]
    by_cases ha : (parse_form_data f FormatterOpt.unset).attachments.length > 0 <;>
      cases hx : (parse_form_data f FormatterOpt.unset).options.reply_to <;>
      simp [ha, hx, Option.or]
  · simp only [merge_form, h]
    by_cases ha : (parse_form_data f FormatterOpt.unset).attachments.length > 0 <;>
      cases hx : (parse_form_data f FormatterOpt.unset).options.cc <;>
      simp [ha, hx, Option.or]
  · simp only [merge_form, h]
    by_cases ha : (parse_form_data f FormatterOpt.unset).attachments.length > 0 <;>
      cases hx : (parse_form_data f FormatterOpt.unset).options.bcc <;>
      simp [ha, hx, Option.or]
  · simp only [merged_to]
    rw [hto]
    cases hx : (parse_form_data f FormatterOpt.unset).options.to_ <;>
      cases hy : o.to_ <;> cases hz : d.to_ <;> simp [Option.or]

/-- A form submission carrying the control field `_to`. -/
def form_with_to : FormBody := [("_to", FormValue.str "form@x.com")]

/-- A send request with an explicit `to` whose form body also supplies `_to`. -/
def clash_options : SendOptions where
  to_ := some (.one (.str "explicit@x.com"))
  from_ := some (.str "sender@x.com")
  body := .form form_with_to

/-- Witness for C1 (amended) at a concrete form that supplies `_to` next to an
explicit `to`. -/
theorem c1_merge_precedence_witness :
    clash_options.body = .form form_with_to ∧
    (merge_form clash_options).to_ = some (.one (.str "form@x.com")) := by
  refine ⟨rfl, ?_⟩
  have h := (c1_merge_precedence clash_options form_with_to {} rfl).1
  rw [h]
  decide

/-- Counterexample for C1 as stated: with an explicit `to` and a form `_to`,
the prepared request carries the form-extracted address, not the explicit one
— the `{ ...options, ...extracted }` spread lets extracted fields win. -/
theorem c1_counterexample :
    (prepare_send clash_options {}).toOption.map (fun r => r.to_) =
      some (.one (.str "form@x.com")) ∧
    ¬ (prepare_send clash_options {}).toOption.map (fun r => r.to_) =
      some (.one (.str "explicit@x.com")) := by
  constructor <;> decide

/-! ### C2: the formatter policy supplied with the send request -/

/-- A form submission with one grouped content field. -/
def contact_form : FormBody := [("contact→name", FormValue.str "Jo")]

/-- A send request over `contact_form` carrying a given formatter policy. -/
def contact_options (fmt : FormatterOpt) : SendOptions where
  body := .form contact_form
  formatter := fmt
  to_ := some (.one (.str "a@b.com"))
  from_ := some (.str "c@d.com")

set_option maxRecDepth 4000 in
/-- Claim C2, behavior at the failing input: `prepare_send` calls
`parse_form_data` without forwarding the request's formatter, so a send
request carrying the disabling policy (`null`/`false`) renders exactly like
one carrying no policy — labels get the default `_.title` treatment — even
though `parse_form_data` itself, handed that same policy, would leave labels
untouched, and the two renderings differ. -/
theorem c2_formatter_dropped :
    ((prepare_send (contact_options .dis) {}).toOption =
      (prepare_send (contact_options .unset) {}).toOption ∧
      (prepare_send (contact_options .dis) {}).toOption.isSome = true)
  ∧ ((prepare_send (contact_options .dis) {}).toOption.map (fun r => r.body) =
      some (.str (render_table title title [("contact", [("name", FieldVal.single "Jo")])])))
  ∧ ((parse_form_data contact_form .dis).options.body =
      some (render_table (fun s => s) (fun s => s)
        [("contact", [("name", FieldVal.single "Jo")])]))
  ∧ render_table title title [("contact", [("name", FieldVal.single "Jo")])] ≠
      render_table (fun s => s) (fun s => s) [("contact", [("name", FieldVal.single "Jo")])] := by
  refine ⟨?_, ?_, ?_, ?_⟩ <;> decide

/-! ### C3: missing recipient / missing sender raised before any transport call -/

/-- The control field a form submission would extract for `to`. -/
def extracted_to (o : SendOptions) : Option String :=
  match o.body with
  | .form f => (parse_form_entries f).options.to_
  | .str _ => none

/-- The control field a form submission would extract for `from`. -/
def extracted_from (o : SendOptions) : Option String :=
  match o.body with
  | .form f => (parse_form_entries f).options.from_
  | .str _ => none

lemma merge_form_to (o : SendOptions) :
    (merge_form o).to_ =
      match extracted_to o with
      | some s => some (.one (.str s))
      | none => o.to_ := by
  cases hb : o.body with
  | str s => simp [merge_form, extracted_to, hb]
  | form f =>
    simp only [merge_form, extracted_to, hb]
    by_cases ha : (parse_form_data f FormatterOpt.unset).attachments.length > 0 <;>
      simp [ha, parse_form_data_to]

lemma merge_form_from (o : SendOptions) :
    (merge_form o).from_ =
      match extracted_from o with
      | some s => some (.str s)
      | none => o.from_ := by
  cases hb : o.body with
  | str s => simp [merge_form, extracted_from, hb]
  | form f =>
    simp only [merge_form, extracted_from, hb]
    by_cases ha : (parse_form_data f FormatterOpt.unset).attachments.length > 0 <;>
      simp [ha, parse_form_data_from]

/-- Claim C3: when `to` is absent from the explicit options, from the form
extraction, and from the defaults, `prepare_send` raises the missing-recipient
error and the transport is never invoked; when `to` resolves but `from` is
absent everywhere, the missing-sender error is raised, again with zero
transport calls; and when both resolve to truthy values, neither failure is
raised and exactly one transport call is made. -/
theorem c3_fail_fast (o : SendOptions) (d : Defaults)
    (h1 : o.to_ = none) (h2 : extracted_to o = none) (h3 : d.to_ = none) :
    (prepare_send o d = .error missing_to_msg ∧ transport_calls o d = 0)
  ∧ (∀ (o' : SendOptions) (d' : Defaults), addr_truthy (merged_to o' d') = true →
      o'.from_ = none → extracted_from o' = none → d'.from_ = none →
      prepare_send o' d' = .error missing_from_msg ∧ transport_calls o' d' = 0)
  ∧ (∀ (o' : SendOptions) (d' : Defaults), addr_truthy (merged_to o' d') = true →
      email_truthy (merged_from o' d') = true →
      (∃ r, prepare_send o' d' = .ok r) ∧ transport_calls o' d' = 1) := by
  refine ⟨?_, ?_, ?_⟩
  · have hto : merged_to o d = none := by
      simp [merged_to, merge_form_to, h1, h2, h3]
    constructor
    · simp [prepare_send, hto]
    · simp [transport_calls, prepare_send, hto]
  · intro o' d' hta hf1 hf2 hf3
    have hfrom : merged_from o' d' = none := by
      simp [merged_from, merge_form_from, hf1, hf2, hf3]
    cases ht : merged_to o' d' with
    | none => rw [ht] at hta; simp [addr_truthy] at hta
    | some t =>
      rw [ht] at hta
      constructor
      · simp [prepare_send, ht, hta, hfrom]
      · simp [transport_calls, prepare_send, ht, hta, hfrom]
  · intro o' d' hta hfa
    cases ht : merged_to o' d' with
    | none => rw [ht] at hta; simp [addr_truthy] at hta
    | some t =>
      rw [ht] at hta
      cases hf : merged_from o' d' with
      | none => rw [hf] at hfa; simp [email_truthy] at hfa
      | some fr =>
        rw [hf] at hfa
        constructor
        · rcases he : prepare_send o' d' with e | r
          · rw [prepare_send] at he
            simp [ht, hta, hf, hfa] at he
          · exact ⟨r, rfl⟩
        · simp [transport_calls, prepare_send, ht, hta, hf, hfa]

/-- Witness for C3 at a request with no `to` anywhere. -/
theorem c3_fail_fast_witness :
    (({ body := BodyVal.str "Body" } : SendOptions).to_ = none ∧
      extracted_to { body := BodyVal.str "Body" } = none ∧
      ({} : Defaults).to_ = none) ∧
    (prepare_send { body := BodyVal.str "Body" } {} = .error missing_to_msg ∧
      transport_calls { body := BodyVal.str "Body" } {} = 0) := by
  exact ⟨⟨rfl, rfl, rfl⟩, (c3_fail_fast { body := BodyVal.str "Body" } {} rfl rfl rfl).1⟩

/-! ### C9: uniform comma-splitting of the list-capable address fields -/

/-- The comma-split pipeline of `parse_addresses`: split on commas, trim each
segment, drop empties. -/
def comma_segments (s : String) : List String :=
  ((split_str ',' s).map trim_js).filter (fun x => x ≠ "")

/-- Claim C9: for a comma-containing string, each of the four list-capable
fields (`to`, `reply_to`, `cc`, `bcc`) of the zepto payload is built by
splitting on commas, trimming, dropping empty segments, and normalizing the
remaining segments in order; `from` always goes through `parse_email_address`
alone and is never comma-split. -/
theorem c9_comma_split (o : ResolvedOptions) (s : String) (h : has_comma s = true) :
    ((build_zepto_params { o with to_ := .one (.str s) }).to_ =
      (comma_segments s).map (fun a => { email_address := parse_email_address (.str a) }))
  ∧ ((build_zepto_params { o with reply_to := some (.one (.str s)) }).reply_to =
      some ((comma_segments s).map (fun a => parse_email_address (.str a))))
  ∧ ((build_zepto_params { o with cc := some (.one (.str s)) }).cc =
      some ((comma_segments s).map (fun a => { email_address := parse_email_address (.str a) })))
  ∧ ((build_zepto_params { o with bcc := some (.one (.str s)) }).bcc =
      some ((comma_segments s).map (fun a => { email_address := parse_email_address (.str a) })))
  ∧ (∀ s' : String, (build_zepto_params { o with from_ := .str s' }).from_ =
      parse_email_address (.str s')) := by
  refine ⟨?_, ?_, ?_, ?_, fun s' => rfl⟩ <;>
    simp [build_zepto_params, parse_addresses, h, comma_segments]

/-- A simple resolved request used as the base point of the C9 witness. -/
def base_resolved : ResolvedOptions where
  to_ := .one (.str "x@y.z")
  from_ := .str "f@g.h"
  body := .str "b"

/-- Witness for C9 at a two-address comma-separated string. -/
theorem c9_comma_split_witness :
    has_comma "a@x.com, b@y.com" = true ∧
    (build_zepto_params { base_resolved with to_ := .one (.str "a@x.com, b@y.com") }).to_ =
      [{ email_address := { address := "a@x.com" } },
       { email_address := { address := "b@y.com" } }] := by
  refine ⟨by decide, ?_⟩
  have h := (c9_comma_split base_resolved "a@x.com, b@y.com" (by decide)).1
  rw [h]
  decide

/-! ### C4: reserved control keys are extracted, never rendered -/

/-- An entry whose key is one of the six reserved control keys and whose value
is a string (the only combination the source's switch extracts). -/
def reserved_string (e : String × FormValue) : Bool :=
  match e.2 with
  | .str _ => reserved_keys.contains e.1
  | .file _ => false

/-- The extracted-options part of one `parse_form_data` loop iteration. -/
def options_step (o : ExtractedOptions) (e : String × FormValue) : ExtractedOptions :=
  match e.2 with
  | .file _ => o
  | .str v =>
    if e.1 = "_to" then { o with to_ := some (decode_value v) }
    else if e.1 = "_subject" then { o with subject := some (decode_value v) }
    else if e.1 = "_from" then { o with from_ := some (decode_value v) }
    else if e.1 = "_reply_to" then { o with reply_to := some (decode_value v) }
    else if e.1 = "_cc" then { o with cc := some (decode_value v) }
    else if e.1 = "_bcc" then { o with bcc := some (decode_value v) }
    else o

/-- The grouped-map part of one `parse_form_data` loop iteration. -/
def grouped_step (g : Grouped) (e : String × FormValue) : Grouped :=
  match e.2 with
  | .file _ => g
  | .str v =>
    if e.1 = "_to" then g
    else if e.1 = "_subject" then g
    else if e.1 = "_from" then g
    else if e.1 = "_reply_to" then g
    else if e.1 = "_cc" then g
    else if e.1 = "_bcc" then g
    else
      let parts := split_str '→' e.1
      let fieldset := parts.getD 0 ""
      let field := parts.getD 1 ""
      if field ≠ "" then add_to_section g fieldset field v
      else add_to_section g "general" e.1 v

lemma step_options (st : ParseState) (e : String × FormValue) :
    (parse_form_step st e).options = options_step st.options e := by
  obtain ⟨k, val⟩ := e
  cases val with
  | file f =>
    simp only [parse_form_step, options_step]
    split <;> rfl
  | str v =>
    simp only [parse_form_step, options_step]
    split_ifs <;> rfl

lemma step_grouped (st : ParseState) (e : String × FormValue) :
    (parse_form_step st e).grouped = grouped_step st.grouped e := by
  obtain ⟨k, val⟩ := e
  cases val with
  | file f =>
    simp only [parse_form_step, grouped_step]
    split <;> rfl
  | str v =>
    simp only [parse_form_step, grouped_step]
    split_ifs <;> rfl

lemma foldl_step_options (body : FormBody) :
    ∀ st : ParseState, (body.foldl parse_form_step st).options =
      body.foldl options_step st.options := by
  induction body with
  | nil => intro st; rfl
  | cons e rest ih =>
    intro st
    simp only [List.foldl_cons]
    rw [ih, step_options]

lemma foldl_step_grouped (body : FormBody) :
    ∀ st : ParseState, (body.foldl parse_form_step st).grouped =
      body.foldl grouped_step st.grouped := by
  induction body with
  | nil => intro st; rfl
  | cons e rest ih =>
    intro st
    simp only [List.foldl_cons]
    rw [ih, step_grouped]

lemma grouped_step_reserved (g : Grouped) (e : String × FormValue)
    (h : reserved_string e = true) : grouped_step g e = g := by
  obtain ⟨k, val⟩ := e
  cases val with
  | file f => rfl
  | str v =>
    have h' : k ∈ reserved_keys := List.mem_of_elem_eq_true h
    simp only [reserved_keys, List.mem_cons, List.mem_singleton, List.not_mem_nil,
      or_false] at h'
    simp only [grouped_step]
    rcases h' with h' | h' | h' | h' | h' | h' <;> simp [h']

lemma foldl_grouped_filter (body : FormBody) :
    ∀ g : Grouped, body.foldl grouped_step g =
      (body.filter (fun e => ¬ reserved_string e)).foldl grouped_step g := by
  induction body with
  | nil => intro g; rfl
  | cons e rest ih =>
    intro g
    by_cases hr : reserved_string e
    · simp only [List.foldl_cons, List.filter_cons, hr]
      rw [grouped_step_reserved g e hr, ih]
      simp
    · simp only [List.foldl_cons, List.filter_cons, hr]
      rw [ih]
      simp [List.foldl_cons]

/-- The value a single entry contributes to the control field `key`. -/
def ctrl_hit (key : String) (e : String × FormValue) : Option String :=
  match e.2 with
  | .str v => if e.1 = key then some v else none
  | .file _ => none

/-- The raw value of the last string entry under the control key, the one the
source's repeated assignment leaves in place. -/
def last_control (key : String) : FormBody → Option String
  | [] => none
  | e :: rest =>
    match last_control key rest with
    | some v => some v
    | none => ctrl_hit key e

lemma foldl_options_field (key : String) (get : ExtractedOptions → Option String)
    (hstep : ∀ (o : ExtractedOptions) (e : String × FormValue),
      get (options_step o e) =
        match ctrl_hit key e with
        | some v => some (decode_value v)
        | none => get o) :
    ∀ (body : FormBody) (o : ExtractedOptions),
      get (body.foldl options_step o) =
        match last_control key body with
        | some v => some (decode_value v)
        | none => get o := by
  intro body
  induction body with
  | nil => intro o; rfl
  | cons e rest ih =>
    intro o
    simp only [List.foldl_cons, last_control]
    rw [ih (options_step o e)]
    cases h : last_control key rest with
    | some v => simp
    | none => simp [hstep]

lemma options_step_body (o : ExtractedOptions) (e : String × FormValue) :
    (options_step o e).body = o.body := by
  obtain ⟨k, val⟩ := e
  cases val with
  | file f => rfl
  | str v =>
    simp only [options_step]
    split_ifs <;> rfl

lemma foldl_options_body (body : FormBody) :
    ∀ o : ExtractedOptions, (body.foldl options_step o).body = o.body := by
  induction body with
  | nil => intro o; rfl
  | cons e rest ih =>
    intro o
    simp only [List.foldl_cons]
    rw [ih, options_step_body]

lemma options_stepto_eq (o : ExtractedOptions) (e : String × FormValue) :
    (options_step o e).to_ =
      match ctrl_hit "_to" e with
      | some v => some (decode_value v)
      | none => o.to_ := by
  obtain ⟨k, val⟩ := e
  cases val with
  | file f => rfl
  | str v =>
    simp only [options_step, ctrl_hit]
    split_ifs <;> simp_all

lemma options_stepsubject_eq (o : ExtractedOptions) (e : String × FormValue) :
    (options_step o e).subject =
      match ctrl_hit "_subject" e with
      | some v => some (decode_value v)
      | none => o.subject := by
  obtain ⟨k, val⟩ := e
  cases val with
  | file f => rfl
  | str v =>
    simp only [options_step, ctrl_hit]
    split_ifs <;> simp_all

lemma options_stepfrom_eq (o : ExtractedOptions) (e : String × FormValue) :
    (options_step o e).from_ =
      match ctrl_hit "_from" e with
      | some v => some (decode_value v)
      | none => o.from_ := by
  obtain ⟨k, val⟩ := e
  cases val with
  | file f => rfl
  | str v =>
    simp only [options_step, ctrl_hit]
    split_ifs <;> simp_all

lemma options_stepreply_to_eq (o : ExtractedOptions) (e : String × FormValue) :
    (options_step o e).reply_to =
      match ctrl_hit "_reply_to" e with
      | some v => some (decode_value v)
      | none => o.reply_to := by
  obtain ⟨k, val⟩ := e
  cases val with
  | file f => rfl
  | str v =>
    simp only [options_step, ctrl_hit]
    split_ifs <;> simp_all

lemma options_stepcc_eq (o : ExtractedOptions) (e : String × FormValue) :
    (options_step o e).cc =
      match ctrl_hit "_cc" e with
      | some v => some (decode_value v)
      | none => o.cc := by
  obtain ⟨k, val⟩ := e
  cases val with
  | file f => rfl
  | str v =>
    simp only [options_step, ctrl_hit]
    split_ifs <;> simp_all

lemma options_stepbcc_eq (o : ExtractedOptions) (e : String × FormValue) :
    (options_step o e).bcc =
      match ctrl_hit "_bcc" e with
      | some v => some (decode_value v)
      | none => o.bcc := by
  obtain ⟨k, val⟩ := e
  cases val with
  | file f => rfl
  | str v =>
    simp only [options_step, ctrl_hit]
    split_ifs <;> simp_all

/-- Claim C4: reserved control keys never reach the grouped map or the
rendered body — the grouping result (and hence the rendered table) over a form
equals the one over the form with every reserved-key string entry removed —
and each reserved-key string entry is instead decoded and stored into the
corresponding extracted option (the last occurrence winning, as repeated
assignment does). -/
theorem c4_reserved_extraction (body : FormBody) (fmt : FormatterOpt) :
    ((parse_form_entries body).grouped =
      (parse_form_entries (body.filter (fun e => ¬ reserved_string e))).grouped)
  ∧ ((parse_form_data body fmt).options.body =
      (parse_form_data (body.filter (fun e => ¬ reserved_string e)) fmt).options.body)
  ∧ ((parse_form_entries body).options.to_ = (last_control "_to" body).map decode_value)
  ∧ ((parse_form_entries body).options.subject =
      (last_control "_subject" body).map decode_value)
  ∧ ((parse_form_entries body).options.from_ = (last_control "_from" body).map decode_value)
  ∧ ((parse_form_entries body).options.reply_to =
      (last_control "_reply_to" body).map decode_value)
  ∧ ((parse_form_entries body).options.cc = (last_control "_cc" body).map decode_value)
  ∧ ((parse_form_entries body).options.bcc = (last_control "_bcc" body).map decode_value) := by
  have hg : (parse_form_entries body).grouped =
      (parse_form_entries (body.filter (fun e => ¬ reserved_string e))).grouped := by
    unfold parse_form_entries
    rw [foldl_step_grouped, foldl_step_grouped, foldl_grouped_filter]
  have hfield : ∀ (key : String) (get : ExtractedOptions → Option String),
      (∀ (o : ExtractedOptions) (e : String × FormValue),
        get (options_step o e) =
          match ctrl_hit key e with
          | some v => some (decode_value v)
          | none => get o) →
      get ({} : ExtractedOptions) = none →
      get (parse_form_entries body).options = (last_control key body).map decode_value := by
    intro key get hstep hbase
    unfold parse_form_entries
    rw [foldl_step_options, foldl_options_field key get hstep body {}]
    cases last_control key body <;> simp [hbase]
  refine ⟨hg, ?_, ?_, ?_, ?_, ?_, ?_, ?_⟩
  · simp only [parse_form_data]
    rw [hg]
    have hb : ∀ b : FormBody, (parse_form_entries b).options.body = none := by
      intro b
      unfold parse_form_entries
      rw [foldl_step_options, foldl_options_body]
    by_cases h :
        0 < (parse_form_entries (body.filter (fun e => !reserved_string e))).grouped.length <;>
      simp [h, hb]
  · exact hfield "_to" (fun o => o.to_) (fun o e => options_stepto_eq o e) rfl
  · exact hfield "_subject" (fun o => o.subject) (fun o e => options_stepsubject_eq o e) rfl
  · exact hfield "_from" (fun o => o.from_) (fun o e => options_stepfrom_eq o e) rfl
  · exact hfield "_reply_to" (fun o => o.reply_to) (fun o e => options_stepreply_to_eq o e) rfl
  · exact hfield "_cc" (fun o => o.cc) (fun o e => options_stepcc_eq o e) rfl
  · exact hfield "_bcc" (fun o => o.bcc) (fun o e => options_stepbcc_eq o e) rfl

/-! ### C7: canonical normalization across input shapes -/

/-- Claim C7: whenever the display-name regex matches the trimmed string, the
normalized address equals the normalization of the corresponding structured
input — address and name being the trimmed captured groups, with a name that
trims to empty yielding no name field — and in particular the display string
`Jo <jo@x.com>` and the structured pair `{address: jo@x.com, name: Jo}`
normalize identically.  (Structured inputs pass through unchanged, so the two
shapes are interchangeable.) -/
theorem c7_display_name (s : String) (g1 g2 : List Char)
    (h : match_display (trim_js s).toList = some (g1, g2)) :
    parse_email_address (.str s) =
      parse_email_address (.addr
        { address := trim_js (String.mk g2),
          name := if trim_js (String.mk g1) = "" then none
                  else some (trim_js (String.mk g1)) })
  ∧ parse_email_address (.str "Jo <jo@x.com>") =
      parse_email_address (.addr { address := "jo@x.com", name := some "Jo" }) := by
  constructor
  · simp only [parse_email_address, h]
    by_cases hn : trim_js (String.mk g1) = "" <;> simp [hn]
  · decide

/-- Witness for C7 at the display string of the spec's own example. -/
theorem c7_display_name_witness :
    match_display (trim_js "Jo <jo@x.com>").toList =
      some ("Jo".toList, "jo@x.com".toList) ∧
    parse_email_address (.str "Jo <jo@x.com>") =
      parse_email_address (.addr { address := "jo@x.com", name := some "Jo" }) := by
  refine ⟨by decide, ?_⟩
  exact (c7_display_name "Jo <jo@x.com>" "Jo".toList "jo@x.com".toList (by decide)).2

/-! ### C8: `decode_value` idempotence and base64 round-tripping -/

lemma char_toNat_lt (c : Char) : c.toNat < 1114112 := by
  have h := c.valid
  rcases h with h | h <;> (simp only [Char.toNat]; omega)

lemma sixbit_inv : ∀ n, n < 64 →
    sixbit_val (sixbit n) = n ∧ is_b64_char (sixbit n) = true ∧
    sixbit n ≠ '=' ∧ sixbit n ≠ '\r' ∧ sixbit n ≠ '\n' := by decide

lemma sixbit_default (n : Nat) (h : 64 ≤ n) : sixbit n = 'A' := by
  refine List.getD_eq_default _ _ ?_
  rw [show b64_alphabet.length = 64 from by decide]
  omega

lemma is_b64_sixbit (n : Nat) : is_b64_char (sixbit n) = true := by
  by_cases h : n < 64
  · exact (sixbit_inv n h).2.1
  · rw [sixbit_default n (by omega)]
    decide

lemma sixbit_ne_pad (n : Nat) : sixbit n ≠ '=' := by
  by_cases h : n < 64
  · exact (sixbit_inv n h).2.2.1
  · rw [sixbit_default n (by omega)]
    decide

lemma sixbit_not_crlf (n : Nat) : sixbit n ≠ '\r' ∧ sixbit n ≠ '\n' := by
  by_cases h : n < 64
  · exact ⟨(sixbit_inv n h).2.2.2.1, (sixbit_inv n h).2.2.2.2⟩
  · rw [sixbit_default n (by omega)]
    exact ⟨by decide, by decide⟩

lemma utf8_char_bytes_lt (c : Char) : ∀ b ∈ utf8_char_bytes c, b < 256 := by
  intro b hb
  have hc := char_toNat_lt c
  simp only [utf8_char_bytes] at hb
  split_ifs at hb with h1 h2 h3
  · simp at hb; omega
  · simp at hb; rcases hb with rfl | rfl <;> omega
  · simp at hb; rcases hb with rfl | rfl | rfl <;> omega
  · simp at hb; rcases hb with rfl | rfl | rfl | rfl <;> omega

lemma utf8_chars_one (b : Nat) (rest : List Nat) (h : b < 0x80) :
    utf8_chars (b :: rest) = Char.ofNat b :: utf8_chars rest := by
  match rest with
  | [] => simp [utf8_chars, h]
  | [b2] => simp only [utf8_chars]; rw [if_pos h]
  | [b2, b3] => simp only [utf8_chars]; rw [if_pos h]
  | b2 :: b3 :: b4 :: r => simp only [utf8_chars]; rw [if_pos h]

lemma utf8_chars_two (b1 b2 : Nat) (rest : List Nat) (h1 : 0x80 ≤ b1) (h2 : b1 < 0xe0) :
    utf8_chars (b1 :: b2 :: rest) =
      Char.ofNat ((b1 - 0xc0) * 64 + b2 % 64) :: utf8_chars rest := by
  match rest with
  | [] => simp only [utf8_chars]; rw [if_neg (by omega), if_pos (by omega)]
  | [b3] => simp only [utf8_chars]; rw [if_neg (by omega), if_pos (by omega)]
  | b3 :: b4 :: r => simp only [utf8_chars]; rw [if_neg (by omega), if_pos (by omega)]

lemma utf8_chars_three (b1 b2 b3 : Nat) (rest : List Nat) (h1 : 0xe0 ≤ b1) (h2 : b1 < 0xf0) :
    utf8_chars (b1 :: b2 :: b3 :: rest) =
      Char.ofNat ((b1 - 0xe0) * 4096 + (b2 % 64) * 64 + b3 % 64) :: utf8_chars rest := by
  match rest with
  | [] =>
    simp only [utf8_chars]
    rw [if_neg (by omega), if_neg (by omega), if_pos (by omega)]
  | b4 :: r =>
    simp only [utf8_chars]
    rw [if_neg (by omega), if_neg (by omega), if_pos (by omega)]

lemma utf8_chars_four (b1 b2 b3 b4 : Nat) (rest : List Nat) (h1 : 0xf0 ≤ b1) :
    utf8_chars (b1 :: b2 :: b3 :: b4 :: rest) =
      Char.ofNat ((b1 - 0xf0) * 262144 + (b2 % 64) * 4096 + (b3 % 64) * 64 + b4 % 64) ::
        utf8_chars rest := by
  simp only [utf8_chars]
  rw [if_neg (by omega), if_neg (by omega), if_neg (by omega)]

lemma utf8_roundtrip (l : List Char) : utf8_chars (utf8_bytes l) = l := by
  induction l with
  | nil => rfl
  | cons c rest ih =>
    have hc := char_toNat_lt c
    simp only [utf8_bytes, List.flatMap_cons] at ih ⊢
    by_cases h1 : c.toNat < 0x80
    · rw [show utf8_char_bytes c = [c.toNat] from by simp [utf8_char_bytes, h1]]
      simp only [List.cons_append, List.nil_append]
      rw [utf8_chars_one _ _ h1, Char.ofNat_toNat, ih]
    · by_cases h2 : c.toNat < 0x800
      · rw [show utf8_char_bytes c = [0xc0 + c.toNat / 64, 0x80 + c.toNat % 64] from by
          simp [utf8_char_bytes, h1, h2]]
        simp only [List.cons_append, List.nil_append]
        rw [utf8_chars_two _ _ _ (by omega) (by omega)]
        rw [show (0xc0 + c.toNat / 64 - 0xc0) * 64 + (0x80 + c.toNat % 64) % 64 = c.toNat
          from by omega]
        rw [Char.ofNat_toNat, ih]
      · by_cases h3 : c.toNat < 0x10000
        · rw [show utf8_char_bytes c =
              [0xe0 + c.toNat / 4096, 0x80 + (c.toNat / 64) % 64, 0x80 + c.toNat % 64] from by
            simp [utf8_char_bytes, h1, h2, h3]]
          simp only [List.cons_append, List.nil_append]
          rw [utf8_chars_three _ _ _ _ (by omega) (by omega)]
          rw [show (0xe0 + c.toNat / 4096 - 0xe0) * 4096 +
              ((0x80 + (c.toNat / 64) % 64) % 64) * 64 + (0x80 + c.toNat % 64) % 64 = c.toNat
            from by omega]
          rw [Char.ofNat_toNat, ih]
        · rw [show utf8_char_bytes c =
              [0xf0 + c.toNat / 262144, 0x80 + (c.toNat / 4096) % 64,
               0x80 + (c.toNat / 64) % 64, 0x80 + c.toNat % 64] from by
            simp [utf8_char_bytes, h1, h2, h3]]
          simp only [List.cons_append, List.nil_append]
          rw [utf8_chars_four _ _ _ _ _ (by omega)]
          rw [show (0xf0 + c.toNat / 262144 - 0xf0) * 262144 +
              ((0x80 + (c.toNat / 4096) % 64) % 64) * 4096 +
              ((0x80 + (c.toNat / 64) % 64) % 64) * 64 + (0x80 + c.toNat % 64) % 64 = c.toNat
            from by omega]
          rw [Char.ofNat_toNat, ih]

lemma b64_decode_pad2 (c1 c2 : Char) (rest : List Char) :
    b64_decode (c1 :: c2 :: '=' :: '=' :: rest) =
      [sixbit_val c1 * 4 + sixbit_val c2 / 16] := by
  simp [b64_decode]

lemma b64_decode_pad1 (c1 c2 c3 : Char) (rest : List Char) (h3 : c3 ≠ '=') :
    b64_decode (c1 :: c2 :: c3 :: '=' :: rest) =
      [sixbit_val c1 * 4 + sixbit_val c2 / 16,
       (sixbit_val c2 % 16) * 16 + sixbit_val c3 / 4] := by
  simp [b64_decode, h3]

lemma b64_decode_full (c1 c2 c3 c4 : Char) (rest : List Char) (h4 : c4 ≠ '=') :
    b64_decode (c1 :: c2 :: c3 :: c4 :: rest) =
      (sixbit_val c1 * 4 + sixbit_val c2 / 16) ::
      ((sixbit_val c2 % 16) * 16 + sixbit_val c3 / 4) ::
      ((sixbit_val c3 % 4) * 64 + sixbit_val c4) :: b64_decode rest := by
  simp [b64_decode, h4]

lemma b64_decode_encode (bs : List Nat) (h : ∀ b ∈ bs, b < 256) :
    b64_decode (b64_encode bs) = bs := by
  induction bs using b64_encode.induct with
  | case1 a b c rest ih =>
    have ha : a < 256 := h a (by simp)
    have hb : b < 256 := h b (by simp)
    have hc : c < 256 := h c (by simp)
    simp only [b64_encode]
    rw [b64_decode_full _ _ _ _ _ (sixbit_ne_pad _)]
    rw [(sixbit_inv _ (by omega)).1, (sixbit_inv _ (by omega)).1,
      (sixbit_inv _ (by omega)).1, (sixbit_inv _ (by omega)).1]
    rw [ih (fun x hx => h x (by simp [hx]))]
    congr 1
    · omega
    congr 1
    · omega
    congr 1
    omega
  | case2 a b =>
    have ha : a < 256 := h a (by simp)
    have hb : b < 256 := h b (by simp)
    simp only [b64_encode]
    rw [b64_decode_pad1 _ _ _ _ (sixbit_ne_pad _)]
    rw [(sixbit_inv _ (by omega)).1, (sixbit_inv _ (by omega)).1,
      (sixbit_inv _ (by omega)).1]
    congr 1
    · omega
    congr 1
    omega
  | case3 a =>
    have ha : a < 256 := h a (by simp)
    simp only [b64_encode]
    rw [b64_decode_pad2]
    rw [(sixbit_inv _ (by omega)).1, (sixbit_inv _ (by omega)).1]
    congr 1
    omega
  | case4 => rfl

lemma b64_tail_pad1 (c1 c2 c3 : Char) (h3 : c3 ≠ '=') :
    b64_tail [c1, c2, c3, '='] =
      (is_b64_char c1 ∧ is_b64_char c2 ∧ is_b64_char c3 : Bool) := by
  simp [b64_tail, h3]

lemma b64_match_encode (bs : List Nat) : b64_match (b64_encode bs) = true := by
  induction bs using b64_encode.induct with
  | case1 a b c rest ih =>
    simp only [b64_encode, b64_match, decide_eq_true_eq]
    exact Or.inl ⟨is_b64_sixbit _, is_b64_sixbit _, is_b64_sixbit _, is_b64_sixbit _, ih⟩
  | case2 a b =>
    simp only [b64_encode, b64_match, decide_eq_true_eq]
    refine Or.inr ?_
    rw [b64_tail_pad1 _ _ _ (sixbit_ne_pad _)]
    simp [is_b64_sixbit]
  | case3 a =>
    simp only [b64_encode, b64_match, decide_eq_true_eq]
    refine Or.inr ?_
    simp [b64_tail, is_b64_sixbit]
  | case4 => decide

lemma mem_b64_encode (bs : List Nat) (c : Char) (hc : c ∈ b64_encode bs) :
    c = '=' ∨ ∃ n, c = sixbit n := by
  induction bs using b64_encode.induct with
  | case1 a b c' rest ih =>
    simp only [b64_encode, List.mem_cons] at hc
    rcases hc with rfl | rfl | rfl | rfl | hc
    · exact Or.inr ⟨_, rfl⟩
    · exact Or.inr ⟨_, rfl⟩
    · exact Or.inr ⟨_, rfl⟩
    · exact Or.inr ⟨_, rfl⟩
    · exact ih hc
  | case2 a b =>
    simp only [b64_encode, List.mem_cons, List.not_mem_nil, or_false] at hc
    rcases hc with rfl | rfl | rfl | rfl
    · exact Or.inr ⟨_, rfl⟩
    · exact Or.inr ⟨_, rfl⟩
    · exact Or.inr ⟨_, rfl⟩
    · exact Or.inl rfl
  | case3 a =>
    simp only [b64_encode, List.mem_cons, List.not_mem_nil, or_false] at hc
    rcases hc with rfl | rfl | rfl | rfl
    · exact Or.inr ⟨_, rfl⟩
    · exact Or.inr ⟨_, rfl⟩
    · exact Or.inl rfl
    · exact Or.inl rfl
  | case4 => simp [b64_encode] at hc

lemma strip_crlf_encode (bs : List Nat) : strip_crlf (b64_encode bs) = b64_encode bs := by
  unfold strip_crlf
  rw [List.filter_eq_self]
  intro c hc
  rcases mem_b64_encode bs c hc with rfl | ⟨n, rfl⟩
  · decide
  · have hn := sixbit_not_crlf n
    simp [hn.1, hn.2]

/-- Claim C8: `decode_value` leaves a string that does not match the base64
regex unchanged (and is therefore idempotent on it), and round-trips every
legitimately base64-encoded value: base64-encoding the UTF-8 bytes of any text
and decoding gives the text back. -/
theorem c8_decode_value (s t : String) (h : b64_match s.toList = false) :
    decode_value s = s
  ∧ decode_value (decode_value s) = decode_value s
  ∧ decode_value (String.mk (b64_encode (utf8_bytes t.toList))) = t := by
  have h1 : decode_value s = s := by
    unfold decode_value
    rw [if_neg (by rw [h]; exact Bool.false_ne_true)]
  refine ⟨h1, by rw [h1, h1], ?_⟩
  have hbytes : ∀ b ∈ utf8_bytes t.toList, b < 256 := by
    intro b hb
    simp only [utf8_bytes, List.mem_flatMap] at hb
    obtain ⟨c, _, hc⟩ := hb
    exact utf8_char_bytes_lt c b hc
  have hdv : decode_value (String.mk (b64_encode (utf8_bytes t.toList))) =
      if b64_match (b64_encode (utf8_bytes t.toList)) then
        String.mk (utf8_chars (b64_decode (strip_crlf (b64_encode (utf8_bytes t.toList)))))
      else String.mk (b64_encode (utf8_bytes t.toList)) := rfl
  rw [hdv, if_pos (b64_match_encode _), strip_crlf_encode, b64_decode_encode _ hbytes,
    utf8_roundtrip]
  cases t
  rfl

/-- Witness for C8 at a non-base64 string and a multibyte text. -/
theorem c8_decode_value_witness :
    b64_match "not base64!".toList = false ∧
    decode_value "not base64!" = "not base64!" ∧
    decode_value (String.mk (b64_encode (utf8_bytes "héllo ✓".toList))) = "héllo ✓" := by
  have h := c8_decode_value "not base64!" "héllo ✓" (by decide)
  exact ⟨by decide, h.1, h.2.2⟩

end Postboi
